import Mathlib

/-!
Verification of the LoRa network simulator orchestrator (`sim.py`).

Shallow embedding of the orchestrator's pure core:
* Python string helpers (`split(sep, maxsplit)`, `startswith`) over char lists;
* the timeline parser `load_events`;
* the `Dispatcher` (connectivity matrix, `update_connectivity`, `deliver_packet`);
* the `NodeProc` stdout reader classification and `get_state`;
* the scheduler (`loader`) step.

Wall-clock time is represented by rational numbers.  Concurrency is represented
by explicit interleavings: lists of lines that the background reader enqueues
between the sequential steps of an operation.
-/

namespace NwkSim

/-- One split step of Python `str.split(sep, ...)` on a char list: the segment
before the first separator and, when a separator occurs, the remainder. -/
def splitOnceCh (sep : Char) : List Char → List Char × Option (List Char)
  | [] => ([], none)
  | c :: rest =>
    if c = sep then ([], some rest)
    else
      let r := splitOnceCh sep rest
      (c :: r.1, r.2)

/-- Python `s.split(sep, 2)` (maxsplit = 2): between one and three pieces. -/
def splitMax2 (s : String) (sep : Char) : List String :=
  match splitOnceCh sep s.data with
  | (seg, none) => [String.mk seg]
  | (seg, some rest) =>
    match splitOnceCh sep rest with
    | (seg2, none) => [String.mk seg, String.mk seg2]
    | (seg2, some rest2) => [String.mk seg, String.mk seg2, String.mk rest2]

/-- Python `s.split(sep, 1)[0]`: the text before the first separator. -/
def beforeFirst (s : String) (sep : Char) : String :=
  String.mk (splitOnceCh sep s.data).1

/-- Python whitespace recognized by `str.strip()` (ASCII range). -/
def isSpaceCh (c : Char) : Bool :=
  c == ' ' || c == '\t' || c == '\n' || c == '\r' || c == '\x0b' || c == '\x0c'

/-- Drop leading whitespace from a char list. -/
def dropLeadingWs : List Char → List Char
  | [] => []
  | c :: rest => if isSpaceCh c then dropLeadingWs rest else c :: rest

/-- Python `s.strip()`: remove leading and trailing whitespace. -/
def pyStrip (s : String) : String :=
  String.mk (dropLeadingWs (dropLeadingWs s.data).reverse).reverse

/-- Char-list core of Python `s.startswith(p)`. -/
def startsWithCh : List Char → List Char → Bool
  | _, [] => true
  | [], _ :: _ => false
  | c :: cs, d :: ds => c == d && startsWithCh cs ds

/-- Python `s.startswith(p)`. -/
def pyStartsWith (s p : String) : Bool :=
  startsWithCh s.data p.data

/-- A timeline event `(ts, dest, data)` as produced by `load_events`. -/
structure Event where
  ts : ℚ
  dest : String
  data : String
deriving DecidableEq, Repr

/-- Diagnostics printed by `load_events` for a rejected input line. -/
inductive LoadErr where
  | malformed (lineno : Nat) (line : String)
  | badTimestamp (lineno : Nat) (tsField : String)
deriving DecidableEq, Repr

/-- Outcome of processing one raw line of the timeline file. -/
inductive LineOutcome where
  | blank
  | malformed (line : String)
  | badTimestamp (tsField : String)
  | event (e : Event)
deriving DecidableEq, Repr

/-- One iteration of the `load_events` loop body: strip everything from `#` on,
strip surrounding whitespace, skip the line when empty, split on the first two
commas, reject fewer than three fields, parse the timestamp, and otherwise
yield the event.  `parseTs` stands for Python's `float()`, an external library
call, so it is passed in as a parameter. -/
def processLine (parseTs : String → Option ℚ) (raw : String) : LineOutcome :=
  let line := pyStrip (beforeFirst raw '#')
  if line = "" then .blank
  else
    match splitMax2 line ',' with
    | [t, d, p] =>
      match parseTs t with
      | some q => .event ⟨q, d, p⟩
      | none => .badTimestamp t
    | _ => .malformed line

/-- The `load_events` line loop, numbering lines from `n`, collecting parsed
events in file order and diagnostics with their line numbers. -/
def loadLoop (parseTs : String → Option ℚ) : Nat → List String → List Event × List LoadErr
  | _, [] => ([], [])
  | n, raw :: rest =>
    let r := loadLoop parseTs (n + 1) rest
    match processLine parseTs raw with
    | .event e => (e :: r.1, r.2)
    | .malformed line => (r.1, .malformed n line :: r.2)
    | .badTimestamp t => (r.1, .badTimestamp n t :: r.2)
    | .blank => r

/-- The sort key used by `events.sort(key=lambda x: x[0])`. -/
def eventLE (a b : Event) : Bool := a.ts ≤ b.ts

/-- Model of `load_events(input_file)`: parse the lines (numbered from 1), then
sort the events by timestamp with a stable sort (Python `list.sort`), returning
the events together with the diagnostics. -/
def load_events (parseTs : String → Option ℚ) (lines : List String) :
    List Event × List LoadErr :=
  let r := loadLoop parseTs 1 lines
  (r.1.mergeSort eventLE, r.2)

/-- The `Dispatcher`'s persistent state: the node-name list given at
construction and the connectivity matrix `conn[src][dst]`, modelled as a
boolean function meaningful on the node names. -/
structure Dispatcher where
  node_names : List String
  conn : String → String → Bool

/-- `Dispatcher.__init__`: every entry of the matrix starts `False`. -/
def Dispatcher.init (names : List String) : Dispatcher :=
  { node_names := names, conn := fun _ _ => false }

/-- `matrix_str[k] == '1'` of the flat row-major bitstring. -/
def bitAt (m : String) (k : Nat) : Bool := m.data.get? k == some '1'

/-- Index of the first occurrence of `x` in the list, counting from `k`:
the position `enumerate` associates with a (unique) node name. -/
def firstIdxFrom (x : String) : List String → Nat → Option Nat
  | [], _ => none
  | y :: ys, k => if y == x then some k else firstIdxFrom x ys (k + 1)

/-- Index of a node name in `node_names` (the row/column the update loops
write for that name). -/
def firstIdx? (names : List String) (x : String) : Option Nat :=
  firstIdxFrom x names 0

/-- Observable effects of the orchestrator: log records (`connectivity_update`,
`forward`, `state`, `tx`, `send_command`), stderr diagnostics, lines written to
a node's stdin (`sendCmd`), an issued `get_state` query with its timeout, and a
scheduler sleep. -/
inductive SimOut where
  | connectivity_update (ts : ℚ) (matrix : String)
  | errBadLength (got : Nat) (n : Nat)
  | sendCmd (dst : String) (cmd : String)
  | forward (src dst payload : String)
  | getStateQuery (dst : String) (timeout : ℚ)
  | state (dst resp : String)
  | tx (src hexdata : String)
  | send_command (ts : ℚ) (dest data : String)
  | errUnknownDest (dest : String) (ts : ℚ)
  | slept (dur : ℚ)
deriving DecidableEq, Repr

/-- `Dispatcher.update_connectivity(matrix_str, ts)`: when the string length
differs from `N*N` report the error and return unchanged; otherwise overwrite
every matrix entry from the row-major bitstring and log one
`connectivity_update` record. -/
def update_connectivity (d : Dispatcher) (matrix_str : String) (ts : ℚ) :
    Dispatcher × List SimOut :=
  let N := d.node_names.length
  if matrix_str.length ≠ N * N then
    (d, [.errBadLength matrix_str.length N])
  else
    ({ d with
        conn := fun src dst =>
          match firstIdx? d.node_names src, firstIdx? d.node_names dst with
          | some i, some j => bitAt matrix_str (i * N + j)
          | _, _ => d.conn src dst },
     [.connectivity_update ts matrix_str])

/-- Classification a `NodeProc._read_stdout` iteration gives one output line:
a line starting with `transmit_packet` with three comma-fields is a push event
carrying its third field; such a line with fewer fields hits the `IndexError`
handler and is dropped; every other line is a response. -/
inductive StdoutClass where
  | pushTx (hexdata : String)
  | malformedTx
  | response
deriving DecidableEq, Repr

/-- The `line.startswith("transmit_packet")` / `line.split(',', 2)` dispatch of
`NodeProc._read_stdout`. -/
def classify_stdout (line : String) : StdoutClass :=
  if pyStartsWith line "transmit_packet" then
    match splitMax2 line ',' with
    | [_, _, hexdata] => .pushTx hexdata
    | _ => .malformedTx
  else .response

/-- Effect of one `_read_stdout` iteration on the response queue: a push line
emits a `tx` record and hands its payload to the dispatcher without touching
the queue; a malformed push line is dropped; any other line is enqueued with
`put`.  Returns (new queue, emitted records, payload handed to the router). -/
def read_stdout_step (src : String) (q : List String) (line : String) :
    List String × List SimOut × Option String :=
  match classify_stdout line with
  | .pushTx hexdata => (q, [.tx src hexdata], some hexdata)
  | .malformedTx => (q, [], none)
  | .response => (q ++ [line], [], none)

/-- The `get_nowait` drain loop of `get_state`: pop until the queue is empty. -/
def drainLoop : List String → List String
  | [] => []
  | _ :: rest => drainLoop rest

/-- The timed wait loop of `get_state` over the lines popped before the
deadline: return the first line starting with `get_state`, dropping the others;
the leftover lines stay queued.  An exhausted list is the elapsed deadline. -/
def waitResp : List String → Option String × List String
  | [] => (none, [])
  | l :: rest => if pyStartsWith l "get_state" then (some l, rest) else waitResp rest

/-- Model of `NodeProc.get_state(timeout)`: write `get_state` to the node's
stdin, then drain the response queue, then wait.  `q0` is the queue content at
call time, `mid` the lines the reader enqueues between the command write and
the completion of the drain loop, `arr` the lines enqueued and popped during
the wait before the deadline; the timeout only bounds the wall-clock wait and
so only delimits `arr`.  Returns the response (or `none` on timeout) and the
remaining queue. -/
def get_state (timeout : ℚ) (q0 mid arr : List String) : Option String × List String :=
  let drained := drainLoop (q0 ++ mid)
  waitResp (drained ++ arr)

/-- Modelled from the spec's claimed step order for `query_state`:
(a) discard any previously unconsumed response, (b) send the query command,
(c) wait.  Under this order the drain only sees the queue content `q0` from
before the call, and the lines `mid` arriving after the send are available to
the wait.  Stated only for comparison with `get_state`, which the source
orders send-then-drain. -/
def get_state_claimOrder (timeout : ℚ) (q0 mid arr : List String) :
    Option String × List String :=
  let drained := drainLoop q0
  waitResp (drained ++ (mid ++ arr))

/-- The fan-out loop of `Dispatcher.deliver_packet` over the destination list
(the iteration order of `self.conn[src].items()`).  `nodes` maps a registered
node name to its response-queue content (`none` when no supervisor was
registered), `arr` gives the lines arriving at a destination during the
`get_state(timeout=0.2)` wait.  For each destination marked reachable and
distinct from `src` whose supervisor is registered: send the
`network_receive_packet` command, log a `forward` record, and query the node's
state, logging a `state` record when a response arrives. -/
def deliverLoop (conn : String → String → Bool) (arr : String → List String)
    (src hexdata : String) :
    List String → (String → Option (List String)) →
    (String → Option (List String)) × List SimOut
  | [], nodes => (nodes, [])
  | dst :: rest, nodes =>
    if conn src dst && dst != src then
      match nodes dst with
      | some q =>
        let gs := get_state (1/5) q [] (arr dst)
        let nodes' := fun n => if n == dst then some gs.2 else nodes n
        let r := deliverLoop conn arr src hexdata rest nodes'
        (r.1,
          ([.sendCmd dst ("network_receive_packet," ++ hexdata),
            .forward src dst hexdata,
            .getStateQuery dst (1/5)]
           ++ (match gs.1 with | some resp => [.state dst resp] | none => [])
           ++ r.2))
      | none => deliverLoop conn arr src hexdata rest nodes
    else deliverLoop conn arr src hexdata rest nodes

/-- `Dispatcher.deliver_packet(src, hexdata)`: `self.conn.get(src, {})` is the
row of `src` when `src` is a known node name and empty otherwise; the loop
body is `deliverLoop` over the destination names in order. -/
def deliver_packet (d : Dispatcher) (nodes : String → Option (List String))
    (arr : String → List String) (src hexdata : String) :
    (String → Option (List String)) × List SimOut :=
  if d.node_names.contains src then
    deliverLoop d.conn arr src hexdata d.node_names nodes
  else (nodes, [])

/-- The records `deliver_packet` produces for one delivered destination. -/
def deliverBlock (arr : String → List String) (src hexdata dst : String) : List SimOut :=
  [.sendCmd dst ("network_receive_packet," ++ hexdata),
   .forward src dst hexdata,
   .getStateQuery dst (1/5)]
  ++ (match (waitResp (arr dst)).1 with | some resp => [.state dst resp] | none => [])

/-- Projection selecting the destination of a `network_receive_packet` send
carrying `hexdata`. -/
def recvProj (hexdata : String) (o : SimOut) : Option String :=
  match o with
  | .sendCmd dst cmd =>
    if cmd == "network_receive_packet," ++ hexdata then some dst else none
  | _ => none

/-- Projection selecting the destination of a `forward` record for `src` and
`hexdata`. -/
def fwdProj (src hexdata : String) (o : SimOut) : Option String :=
  match o with
  | .forward s dst p => if s == src && p == hexdata then some dst else none
  | _ => none

/-- Projection selecting an issued `get_state` query and its timeout. -/
def queryProj (o : SimOut) : Option (String × ℚ) :=
  match o with
  | .getStateQuery dst t => some (dst, t)
  | _ => none

/-- Destinations of the `network_receive_packet` sends carrying `hexdata`. -/
def receiveSends (hexdata : String) (outs : List SimOut) : List String :=
  outs.filterMap (recvProj hexdata)

/-- Destinations of the `forward` records for `src` and `hexdata`. -/
def forwardsOf (src hexdata : String) (outs : List SimOut) : List String :=
  outs.filterMap (fwdProj src hexdata)

/-- The issued `get_state` queries with their timeouts. -/
def stateQueries (outs : List SimOut) : List (String × ℚ) :=
  outs.filterMap queryProj

/-- Whether an effect is an operator-facing error diagnostic. -/
def isErrOut : SimOut → Bool
  | .errBadLength _ _ => true
  | .errUnknownDest _ _ => true
  | _ => false

/-- Whether an effect addresses the node `dst` (a send, a forward to it, a
query of it, or a state record about it). -/
def mentions (dst : String) : SimOut → Bool
  | .sendCmd d _ => d == dst
  | .forward _ d _ => d == dst
  | .getStateQuery d _ => d == dst
  | .state d _ => d == dst
  | _ => false

/-- One iteration of the scheduler (`loader`) body: compute
`to_sleep = event.timestamp - now` and sleep only when it is positive; then
dispatch: destination `"-1"` applies the payload as a connectivity update; a
known destination gets the payload on its stdin plus a `send_command` record;
an unknown destination is reported.  Returns (dispatcher, slept duration,
effects). -/
def loader_step (known : String → Bool) (d : Dispatcher) (now : ℚ) (ev : Event) :
    Dispatcher × ℚ × List SimOut :=
  let to_sleep := ev.ts - now
  let slept := if to_sleep > 0 then to_sleep else 0
  if ev.dest == "-1" then
    let u := update_connectivity d ev.data ev.ts
    (u.1, slept, u.2)
  else if known ev.dest then
    (d, slept, [.sendCmd ev.dest ev.data, .send_command ev.ts ev.dest ev.data])
  else
    (d, slept, [.errUnknownDest ev.dest ev.ts])

/-- The scheduler loop over the timeline, with the wall-clock reading at each
iteration given alongside its event. -/
def loader_run (known : String → Bool) :
    Dispatcher → List (ℚ × Event) → Dispatcher × List SimOut
  | d, [] => (d, [])
  | d, (now, ev) :: rest =>
    let st := loader_step known d now ev
    let r := loader_run known st.1 rest
    (r.1, (SimOut.slept st.2.1 :: st.2.2) ++ r.2)

/-- A digit-string parser standing in for Python `float()` on whole-number
timestamps, used to instantiate the parser parameter in witnesses. -/
def parseDigitsFrom (acc : Nat) : List Char → Option Nat
  | [] => some acc
  | c :: rest =>
    if '0' ≤ c && c ≤ '9' then
      parseDigitsFrom (acc * 10 + (c.toNat - '0'.toNat)) rest
    else none

/-- `simpleTs s` parses a nonempty all-digit string as a rational timestamp. -/
def simpleTs (s : String) : Option ℚ :=
  if s.data.isEmpty then none
  else (parseDigitsFrom 0 s.data).map (fun n => (n : ℚ))

/-- The event a numbered input line contributes to the parsed timeline, if
any (the per-line view of `loadLoop`). -/
def lineEvent? (parseTs : String → Option ℚ) (x : Nat × String) : Option Event :=
  match processLine parseTs x.2 with
  | .event e => some e
  | _ => none

/-- The diagnostic a numbered input line contributes, if any (the per-line
view of `loadLoop`). -/
def lineErr? (parseTs : String → Option ℚ) (x : Nat × String) : Option LoadErr :=
  match processLine parseTs x.2 with
  | .malformed line => some (.malformed x.1 line)
  | .badTimestamp t => some (.badTimestamp x.1 t)
  | _ => none

/-- Two-node fixture: the dispatcher after applying the bitstring `0110`
(each node reaches the other, no self-loops). -/
def dispW : Dispatcher :=
  (update_connectivity (Dispatcher.init ["ND01", "ND02"]) "0110" 0).1

/-- Fixture registry with both nodes registered and empty queues. -/
def nodesW : String → Option (List String) :=
  fun n => if n == "ND01" || n == "ND02" then some [] else none

/-- Fixture registry with only `ND02` registered, holding two stale lines. -/
def nodesW2 : String → Option (List String) :=
  fun n => if n == "ND02" then some ["stale1", "stale2"] else none

/-- Fixture arrival oracle: during a query of `ND02` one unrelated line and
then a state response arrive. -/
def arrW : String → List String :=
  fun n => if n == "ND02" then ["node_update,x", "get_state,5,ND01,7,8,9"] else []

/-- Fixture known-destination predicate for the scheduler. -/
def knownW : String → Bool := fun n => n == "ND01"

/-- Fixture timeline event addressed to a destination that was never
spawned. -/
def evW : Event := ⟨1, "ND99", "cmd"⟩

/-- The drain loop pops every queued line. -/
theorem drainLoop_eq_nil (l : List String) : drainLoop l = [] := by
  induction l with
  | nil => rfl
  | cons a l ih => simpa [drainLoop] using ih

/-- `get_state` returns exactly what the wait loop extracts from the lines
arriving after its drain: the prior queue content and the lines arriving
before the drain completes never influence the result. -/
theorem get_state_eq_waitResp (t : ℚ) (q0 mid arr : List String) :
    get_state t q0 mid arr = waitResp arr := by
  simp [get_state, drainLoop_eq_nil]

/-- When no line tagged `get_state` arrives before the deadline, the wait
loop consumes everything and reports no response. -/
theorem waitResp_none (arr : List String)
    (h : ∀ l ∈ arr, pyStartsWith l "get_state" = false) : waitResp arr = (none, []) := by
  induction arr with
  | nil => rfl
  | cons a arr ih =>
    have ha := h a (List.mem_cons_self a arr)
    simp only [waitResp, ha, Bool.false_eq_true, if_false]
    exact ih fun l hl => h l (List.mem_cons_of_mem a hl)

/-- A returned response is a line tagged `get_state` from among the arrived
lines. -/
theorem waitResp_some_tag (arr : List String) (resp : String)
    (h : (waitResp arr).1 = some resp) :
    pyStartsWith resp "get_state" = true ∧ resp ∈ arr := by
  induction arr with
  | nil => simp [waitResp] at h
  | cons a arr ih =>
    by_cases ha : pyStartsWith a "get_state" = true
    · simp only [waitResp, ha, if_true] at h
      obtain rfl : a = resp := by simpa using h
      exact ⟨ha, List.mem_cons_self a arr⟩
    · simp only [waitResp, ha, if_false] at h
      obtain ⟨h1, h2⟩ := ih h
      exact ⟨h1, List.mem_cons_of_mem a h2⟩

/-- `split(sep, 2)` yields at most three pieces. -/
theorem splitMax2_length_le (s : String) (sep : Char) :
    (splitMax2 s sep).length ≤ 3 := by
  cases h1 : splitOnceCh sep s.data with
  | mk seg rest =>
    cases rest with
    | none => simp [splitMax2, h1]
    | some r1 =>
      cases h2 : splitOnceCh sep r1 with
      | mk seg2 rest2 =>
        cases rest2 with
        | none => simp [splitMax2, h1, h2]
        | some r2 => simp [splitMax2, h1, h2]

/-- In a duplicate-free list the first index found for the `i`-th element is
`i` itself (shifted by the running counter). -/
theorem firstIdxFrom_get :
    ∀ (l : List String), l.Nodup → ∀ (i : Nat) (h : i < l.length) (k : Nat),
      firstIdxFrom (l.get ⟨i, h⟩) l k = some (k + i) := by
  intro l
  induction l with
  | nil => intro _ i h _; simp at h
  | cons x xs ih =>
    intro hnd i h k
    cases i with
    | zero => simp [firstIdxFrom]
    | succ i =>
      have hi : i < xs.length := by simpa using h
      have hxmem : xs.get ⟨i, hi⟩ ∈ xs := List.get_mem xs i hi
      have hne : (x == xs.get ⟨i, hi⟩) = false := by
        refine beq_eq_false_iff_ne.mpr fun e => ?_
        exact (List.nodup_cons.mp hnd).1 (e ▸ hxmem)
      have hxs : xs.Nodup := (List.nodup_cons.mp hnd).2
      have hrec := ih hxs i hi (k + 1)
      simp only [List.get_cons_succ, firstIdxFrom, hne, Bool.false_eq_true, if_false]
      rw [hrec]
      congr 1
      omega

/-- Index lookup of the `i`-th name of a duplicate-free name list. -/
theorem firstIdx?_get (l : List String) (hnd : l.Nodup) (i : Nat) (h : i < l.length) :
    firstIdx? l (l.get ⟨i, h⟩) = some i := by
  simpa [firstIdx?] using firstIdxFrom_get l hnd i h 0

/-- The pair `(n + k, l[k])` occurs in the enumeration of `l` from `n`. -/
theorem enumFrom_get_mem :
    ∀ (l : List String) (n k : Nat) (h : k < l.length),
      (n + k, l.get ⟨k, h⟩) ∈ l.enumFrom n := by
  intro l
  induction l with
  | nil => intro n k h; simp at h
  | cons x xs ih =>
    intro n k h
    cases k with
    | zero => simp [List.enumFrom]
    | succ k =>
      have hk : k < xs.length := by simpa using h
      have hrec := ih (n + 1) k hk
      have harith : n + (k + 1) = (n + 1) + k := by omega
      simp only [List.get_cons_succ, List.enumFrom, harith]
      exact List.mem_cons_of_mem _ hrec

/-- The parse loop collects, per numbered line, the event and the diagnostic
its outcome yields. -/
theorem loadLoop_eq (parseTs : String → Option ℚ) (n : Nat) (lines : List String) :
    loadLoop parseTs n lines =
      ((lines.enumFrom n).filterMap (lineEvent? parseTs),
       (lines.enumFrom n).filterMap (lineErr? parseTs)) := by
  induction lines generalizing n with
  | nil => rfl
  | cons raw rest ih =>
    simp only [loadLoop, List.enumFrom, List.filterMap_cons]
    rw [ih (n + 1)]
    cases h : processLine parseTs raw <;> simp [lineEvent?, lineErr?, h]

/-- Replacing one registered node's queue never changes which names are
registered. -/
theorem update_queue_isSome (nodes : String → Option (List String))
    (dst : String) (q newq : List String) (hn : nodes dst = some q) (n : String) :
    ((fun m => if m == dst then some newq else nodes m) n).isSome = (nodes n).isSome := by
  by_cases h : n = dst
  · subst h; simp [hn]
  · have hb : (n == dst) = false := beq_eq_false_iff_ne.mpr h
    simp [hb]

/-- The effects of the fan-out loop: one block of records per destination
that is marked reachable, differs from the source and has a registered
supervisor, in destination-list order. -/
theorem deliverLoop_outs (conn : String → String → Bool) (arr : String → List String)
    (src hexdata : String) :
    ∀ (l : List String) (nodes : String → Option (List String)),
      (deliverLoop conn arr src hexdata l nodes).2 =
        l.flatMap (fun dst =>
          if conn src dst && dst != src && (nodes dst).isSome then
            deliverBlock arr src hexdata dst
          else []) := by
  intro l
  induction l with
  | nil => intro nodes; rfl
  | cons dst rest ih =>
    intro nodes
    by_cases h1 : (conn src dst && dst != src) = true
    · cases hn : nodes dst with
      | some q =>
        have hfun :
            (fun d => if conn src d && d != src
                  && ((fun m => if m == dst then some (get_state (1/5) q [] (arr dst)).2
                        else nodes m) d).isSome
                then deliverBlock arr src hexdata d else [])
            = (fun d => if conn src d && d != src && (nodes d).isSome
                then deliverBlock arr src hexdata d else []) := by
          funext d
          rw [update_queue_isSome nodes dst q _ hn d]
        simp only [deliverLoop, h1, hn, if_true, List.flatMap_cons]
        rw [ih, hfun]
        have hgs : get_state ((5 : ℚ)⁻¹) q [] (arr dst) = waitResp (arr dst) :=
          get_state_eq_waitResp _ _ _ _
        simp [deliverBlock, hgs, h1, hn, List.append_assoc]
      | none =>
        simp only [deliverLoop, h1, hn, if_true, List.flatMap_cons]
        rw [ih]
        simp [h1, hn]
    · have h1' : (conn src dst && dst != src) = false := by simpa using h1
      simp only [deliverLoop, h1', Bool.false_eq_true, if_false, List.flatMap_cons]
      rw [ih]
      simp [h1']

/-- The registry after the fan-out loop: every delivered destination's queue
is replaced by what its `get_state` wait left behind, independently of the
queue's prior content; every other entry is untouched. -/
theorem deliverLoop_nodes (conn : String → String → Bool) (arr : String → List String)
    (src hexdata : String) :
    ∀ (l : List String) (nodes : String → Option (List String)) (n : String),
      (deliverLoop conn arr src hexdata l nodes).1 n =
        if n ∈ l ∧ (conn src n && n != src) = true ∧ (nodes n).isSome = true
        then some ((waitResp (arr n)).2)
        else nodes n := by
  intro l
  induction l with
  | nil =>
    intro nodes n
    simp [deliverLoop]
  | cons dst rest ih =>
    intro nodes n
    by_cases h1 : (conn src dst && dst != src) = true
    · cases hn : nodes dst with
      | some q =>
        simp only [deliverLoop, h1, hn, if_true]
        rw [ih]
        have hgs : (get_state ((5 : ℚ)⁻¹) q [] (arr dst)).2 = (waitResp (arr dst)).2 := by
          rw [get_state_eq_waitResp]
        by_cases hnd : n = dst
        · subst hnd
          by_cases hr : n ∈ rest
          · simp [hr, h1, hn, hgs, List.mem_cons]
          · simp [hr, h1, hn, hgs, List.mem_cons]
        · have hb : (n == dst) = false := beq_eq_false_iff_ne.mpr hnd
          simp [hb, List.mem_cons, hnd]
      | none =>
        simp only [deliverLoop, h1, hn, if_true]
        rw [ih]
        by_cases hnd : n = dst
        · subst hnd
          simp [hn, List.mem_cons]
        · simp [List.mem_cons, hnd]
    · have h1' : (conn src dst && dst != src) = false := by simpa using h1
      simp only [deliverLoop, h1', Bool.false_eq_true, if_false]
      rw [ih]
      by_cases hnd : n = dst
      · subst hnd
        simp [h1', List.mem_cons]
      · simp [List.mem_cons, hnd]

/-- Projecting the fan-out record stream when each block projects to one
element: the projections are the delivered destinations in order. -/
theorem filterMap_flatMap_if {β : Type} (P : String → Bool) (F : String → List SimOut)
    (f : SimOut → Option β) (g : String → β)
    (hb : ∀ dst, (F dst).filterMap f = [g dst]) :
    ∀ l : List String,
      ((l.flatMap fun dst => if P dst then F dst else []).filterMap f)
        = (l.filter P).map g := by
  intro l
  induction l with
  | nil => rfl
  | cons a l ih =>
    by_cases h : P a = true
    · simp [List.flatMap_cons, List.filterMap_append, h, hb a, List.filter_cons, ih]
    · have h' : P a = false := by simpa using h
      simp [List.flatMap_cons, List.filterMap_append, h', List.filter_cons, ih]

/-- One delivery block carries exactly one `network_receive_packet` send, to
its destination. -/
theorem deliverBlock_recv (arr : String → List String) (src hexdata dst : String) :
    (deliverBlock arr src hexdata dst).filterMap (recvProj hexdata) = [dst] := by
  cases h : (waitResp (arr dst)).1 <;> simp [deliverBlock, h, recvProj]

/-- One delivery block carries exactly one `forward` record, to its
destination. -/
theorem deliverBlock_fwd (arr : String → List String) (src hexdata dst : String) :
    (deliverBlock arr src hexdata dst).filterMap (fwdProj src hexdata) = [dst] := by
  cases h : (waitResp (arr dst)).1 <;> simp [deliverBlock, h, fwdProj]

/-- One delivery block carries exactly one issued `get_state` query, of its
destination, with timeout 0.2. -/
theorem deliverBlock_query (arr : String → List String) (src hexdata dst : String) :
    (deliverBlock arr src hexdata dst).filterMap queryProj = [(dst, (1/5 : ℚ))] := by
  cases h : (waitResp (arr dst)).1 <;> simp [deliverBlock, h, queryProj]

/-- A delivery block addresses only its own destination. -/
theorem deliverBlock_mentions (arr : String → List String) (src hexdata dst x : String)
    (hne : dst ≠ x) :
    ∀ o ∈ deliverBlock arr src hexdata dst, mentions x o = false := by
  intro o ho
  have hb : (dst == x) = false := beq_eq_false_iff_ne.mpr hne
  cases hw : (waitResp (arr dst)).1 with
  | none =>
    simp [deliverBlock, hw] at ho
    rcases ho with rfl | rfl | rfl <;> simp [mentions, hb]
  | some resp =>
    simp [deliverBlock, hw] at ho
    rcases ho with rfl | rfl | rfl | rfl <;> simp [mentions, hb]

/-- A delivery block contains no error diagnostic. -/
theorem deliverBlock_no_err (arr : String → List String) (src hexdata dst : String) :
    ∀ o ∈ deliverBlock arr src hexdata dst, isErrOut o = false := by
  intro o ho
  cases hw : (waitResp (arr dst)).1 with
  | none =>
    simp [deliverBlock, hw] at ho
    rcases ho with rfl | rfl | rfl <;> simp [isErrOut]
  | some resp =>
    simp [deliverBlock, hw] at ho
    rcases ho with rfl | rfl | rfl | rfl <;> simp [isErrOut]

/-- C2: for every bitstring whose length differs from node_count squared,
`update_connectivity` reports an error and leaves the connectivity matrix
exactly as it was before the call; no partial update is applied. -/
theorem update_connectivity_bad_length (d : Dispatcher) (m : String) (ts : ℚ)
    (h : m.length ≠ d.node_names.length * d.node_names.length) :
    (update_connectivity d m ts).1 = d
    ∧ (∀ s t, (update_connectivity d m ts).1.conn s t = d.conn s t)
    ∧ (update_connectivity d m ts).2 = [SimOut.errBadLength m.length d.node_names.length] := by
  refine ⟨?_, ?_, ?_⟩ <;> simp [update_connectivity, h]

/-- Witness for C2: a length-3 bitstring against a two-node dispatcher. -/
theorem update_connectivity_bad_length_witness :
    "010".length ≠ (Dispatcher.init ["ND01", "ND02"]).node_names.length
        * (Dispatcher.init ["ND01", "ND02"]).node_names.length
    ∧ ((update_connectivity (Dispatcher.init ["ND01", "ND02"]) "010" 0).1
        = Dispatcher.init ["ND01", "ND02"]
      ∧ (∀ s t, (update_connectivity (Dispatcher.init ["ND01", "ND02"]) "010" 0).1.conn s t
          = (Dispatcher.init ["ND01", "ND02"]).conn s t)
      ∧ (update_connectivity (Dispatcher.init ["ND01", "ND02"]) "010" 0).2
          = [SimOut.errBadLength "010".length
              (Dispatcher.init ["ND01", "ND02"]).node_names.length]) :=
  ⟨by decide, update_connectivity_bad_length (Dispatcher.init ["ND01", "ND02"]) "010" 0 (by decide)⟩

/-- C3: for every bitstring of length exactly N*N, after `update_connectivity`
succeeds the stored matrix satisfies `reachable(i, j) = (b[i*N+j] == '1')` for
every ordered pair, the whole matrix having been replaced in the one call,
which logs exactly one `connectivity_update` record. -/
theorem update_connectivity_valid (d : Dispatcher) (m : String) (ts : ℚ)
    (hnd : d.node_names.Nodup)
    (hlen : m.length = d.node_names.length * d.node_names.length) :
    (update_connectivity d m ts).2 = [SimOut.connectivity_update ts m]
    ∧ (∀ (i j : Nat) (hi : i < d.node_names.length) (hj : j < d.node_names.length),
        (update_connectivity d m ts).1.conn (d.node_names.get ⟨i, hi⟩) (d.node_names.get ⟨j, hj⟩)
          = bitAt m (i * d.node_names.length + j)) := by
  constructor
  · simp [update_connectivity, hlen]
  · intro i j hi hj
    have h1 := firstIdx?_get d.node_names hnd i hi
    have h2 := firstIdx?_get d.node_names hnd j hj
    simp only [List.get_eq_getElem] at h1 h2
    simp [update_connectivity, hlen, h1, h2]

/-- Witness for C3: the two-node bitstring `0110`. -/
theorem update_connectivity_valid_witness :
    (update_connectivity (Dispatcher.init ["ND01", "ND02"]) "0110" 0).2
      = [SimOut.connectivity_update 0 "0110"]
    ∧ (update_connectivity (Dispatcher.init ["ND01", "ND02"]) "0110" 0).1.conn "ND01" "ND02"
      = bitAt "0110" 1 := by
  have h := update_connectivity_valid (Dispatcher.init ["ND01", "ND02"]) "0110" 0
      (by decide) (by decide)
  exact ⟨h.1, by simpa using h.2 0 1 (by decide) (by decide)⟩

/-- C4 counterexample: the claimed step order (discard, then send, then wait)
is observably different from the code's order (send, then discard, then
wait): a response arriving between the send and the completion of the drain
is discarded by `get_state` but returned under the claimed order. -/
theorem get_state_order_cex :
    (get_state 1 [] ["get_state,7"] []).1 = none
    ∧ (get_state_claimOrder 1 [] ["get_state,7"] []).1 = some "get_state,7" := by
  constructor <;> decide

/-- C4 (amended): `get_state` first sends the fixed query command, then
discards every unconsumed response (including one arriving after the send but
before the drain completes), then blocks consuming arrivals until a line
tagged `get_state` arrives or the deadline elapses; with no tagged arrival it
returns absent, and any returned response is a tagged line from among the
arrivals. -/
theorem get_state_send_then_drain (t : ℚ) (q0 mid arr : List String) :
    get_state t q0 mid arr = waitResp arr
    ∧ ((∀ l ∈ arr, pyStartsWith l "get_state" = false) → (get_state t q0 mid arr).1 = none)
    ∧ (∀ resp, (get_state t q0 mid arr).1 = some resp →
        pyStartsWith resp "get_state" = true ∧ resp ∈ arr) := by
  refine ⟨get_state_eq_waitResp t q0 mid arr, ?_, ?_⟩
  · intro h
    rw [get_state_eq_waitResp, waitResp_none arr h]
  · intro resp h
    rw [get_state_eq_waitResp] at h
    exact waitResp_some_tag arr resp h

/-- Witness for C4 (amended): a stale line and a mid-drain response are both
discarded; an untagged arrival leads to an absent result. -/
theorem get_state_send_then_drain_witness :
    get_state 1 ["stale"] ["get_state,9"] ["x"] = waitResp ["x"]
    ∧ (get_state 1 ["stale"] ["get_state,9"] ["x"]).1 = none := by
  have h := get_state_send_then_drain 1 ["stale"] ["get_state,9"] ["x"]
  exact ⟨h.1, h.2.1 (by decide)⟩

/-- C5 counterexample: after two non-push lines the response channel holds
both of them; the earlier one is retained, not overwritten, and the channel
holds more than one unconsumed response. -/
theorem resp_queue_not_single_slot :
    (read_stdout_step "ND01"
        (read_stdout_step "ND01" [] "node_update,ND01,1,2,3").1
        "node_update,ND01,4,5,6").1
      = ["node_update,ND01,1,2,3", "node_update,ND01,4,5,6"]
    ∧ ¬ ((read_stdout_step "ND01"
        (read_stdout_step "ND01" [] "node_update,ND01,1,2,3").1
        "node_update,ND01,4,5,6").1.length ≤ 1) := by
  constructor <;> decide

/-- C5 (amended): the per-node response channel is an unbounded queue: each
newly classified non-push output line is appended, retaining prior unconsumed
values, and all unconsumed values are discarded together when the next query
is issued, so a query observes only lines arriving after its drain. -/
theorem resp_queue_append_and_drain (src : String) (q : List String) (line : String)
    (hresp : classify_stdout line = StdoutClass.response) :
    read_stdout_step src q line = (q ++ [line], [], none)
    ∧ (∀ (t : ℚ) (mid arr : List String), get_state t (q ++ [line]) mid arr = waitResp arr) := by
  refine ⟨?_, fun t mid arr => get_state_eq_waitResp t _ mid arr⟩
  simp [read_stdout_step, hresp]

/-- Witness for C5 (amended): a `node_update` line is appended behind an
older unconsumed line, and the next query drains both. -/
theorem resp_queue_append_and_drain_witness :
    read_stdout_step "ND01" ["old"] "node_update,a" = (["old", "node_update,a"], [], none)
    ∧ get_state 1 (["old"] ++ ["node_update,a"]) [] ["get_state,1"]
        = waitResp ["get_state,1"] := by
  have h := resp_queue_append_and_drain "ND01" ["old"] "node_update,a" (by decide)
  exact ⟨h.1, h.2 1 [] ["get_state,1"]⟩

/-- C7: a stdout line recognized as a `transmit_packet` push notification is
never placed on the response channel; a well-formed one emits one `tx` record
and hands its payload to the dispatcher for fan-out. -/
theorem transmit_line_push_only (src : String) (q : List String) (line : String)
    (hpush : pyStartsWith line "transmit_packet" = true) :
    (read_stdout_step src q line).1 = q
    ∧ (∀ a b hexdata, splitMax2 line ',' = [a, b, hexdata] →
        read_stdout_step src q line = (q, [SimOut.tx src hexdata], some hexdata)) := by
  constructor
  · cases hc : classify_stdout line with
    | pushTx hex => simp [read_stdout_step, hc]
    | malformedTx => simp [read_stdout_step, hc]
    | response =>
      exfalso
      simp only [classify_stdout, hpush, if_true] at hc
      split at hc <;> simp_all
  · intro a b hexdata hsplit
    simp [read_stdout_step, classify_stdout, hpush, hsplit]

/-- Witness for C7: the push line `transmit_packet,4,DEAD` with a stale
queued response. -/
theorem transmit_line_push_only_witness :
    (read_stdout_step "ND01" ["stale"] "transmit_packet,4,DEAD").1 = ["stale"]
    ∧ read_stdout_step "ND01" ["stale"] "transmit_packet,4,DEAD"
        = (["stale"], [SimOut.tx "ND01" "DEAD"], some "DEAD") := by
  have h := transmit_line_push_only "ND01" ["stale"] "transmit_packet,4,DEAD" (by decide)
  exact ⟨h.1, h.2 "transmit_packet" "4" "DEAD" (by decide)⟩

/-- C1: when every node name has a registered supervisor, `deliver_packet`
sends a `network_receive_packet` command carrying the payload to, and emits
one `forward` record for, exactly the destinations marked reachable from the
source and distinct from it; in particular the source itself is never a
forward target, whatever the stored matrix says. -/
theorem deliver_packet_reaches (d : Dispatcher) (nodes : String → Option (List String))
    (arr : String → List String) (src hexdata : String)
    (hsrc : src ∈ d.node_names)
    (hreg : ∀ n ∈ d.node_names, (nodes n).isSome = true) :
    receiveSends hexdata (deliver_packet d nodes arr src hexdata).2
      = d.node_names.filter (fun dst => d.conn src dst && dst != src)
    ∧ forwardsOf src hexdata (deliver_packet d nodes arr src hexdata).2
      = d.node_names.filter (fun dst => d.conn src dst && dst != src)
    ∧ src ∉ forwardsOf src hexdata (deliver_packet d nodes arr src hexdata).2 := by
  have hc : d.node_names.contains src = true := by simpa using hsrc
  have hout : (deliver_packet d nodes arr src hexdata).2
      = d.node_names.flatMap (fun dst =>
          if d.conn src dst && dst != src && (nodes dst).isSome then
            deliverBlock arr src hexdata dst
          else []) := by
    simp only [deliver_packet, hc, if_true]
    exact deliverLoop_outs d.conn arr src hexdata d.node_names nodes
  have hfilter :
      (d.node_names.filter fun dst => d.conn src dst && dst != src && (nodes dst).isSome)
        = d.node_names.filter fun dst => d.conn src dst && dst != src := by
    refine List.filter_congr ?_
    intro dst hdst
    rw [hreg dst hdst, Bool.and_true]
  have hrecv := filterMap_flatMap_if
    (fun dst => d.conn src dst && dst != src && (nodes dst).isSome)
    (deliverBlock arr src hexdata) (recvProj hexdata) (fun dst => dst)
    (fun dst => deliverBlock_recv arr src hexdata dst) d.node_names
  have hfwd := filterMap_flatMap_if
    (fun dst => d.conn src dst && dst != src && (nodes dst).isSome)
    (deliverBlock arr src hexdata) (fwdProj src hexdata) (fun dst => dst)
    (fun dst => deliverBlock_fwd arr src hexdata dst) d.node_names
  refine ⟨?_, ?_, ?_⟩
  · rw [receiveSends, hout, hrecv, hfilter, List.map_id']
  · rw [forwardsOf, hout, hfwd, hfilter, List.map_id']
  · rw [forwardsOf, hout, hfwd, hfilter, List.map_id']
    intro hmem
    have := (List.mem_filter.mp hmem).2
    simp at this

/-- Witness for C1: both nodes registered, `ND01` transmits `DEAD` over the
matrix `0110`. -/
theorem deliver_packet_reaches_witness :
    receiveSends "DEAD" (deliver_packet dispW nodesW arrW "ND01" "DEAD").2
      = dispW.node_names.filter (fun dst => dispW.conn "ND01" dst && dst != "ND01")
    ∧ forwardsOf "ND01" "DEAD" (deliver_packet dispW nodesW arrW "ND01" "DEAD").2
      = dispW.node_names.filter (fun dst => dispW.conn "ND01" dst && dst != "ND01")
    ∧ "ND01" ∉ forwardsOf "ND01" "DEAD" (deliver_packet dispW nodesW arrW "ND01" "DEAD").2 :=
  deliver_packet_reaches dispW nodesW arrW "ND01" "DEAD" (by decide) (by decide)

/-- C10: every destination `deliver_packet` forwards to also receives a
`get_state` query with a 0.2-second timeout; a response yields a `state`
record, and the destination's response queue is left holding exactly what the
query's wait left behind, independently of its prior content; a destination
that is marked reachable but has no registered supervisor is skipped
silently: no record addresses it and no error diagnostic is emitted. -/
theorem deliver_packet_query_effects (d : Dispatcher) (nodes : String → Option (List String))
    (arr : String → List String) (src hexdata : String)
    (hsrc : src ∈ d.node_names) :
    forwardsOf src hexdata (deliver_packet d nodes arr src hexdata).2
      = d.node_names.filter (fun dst => d.conn src dst && dst != src && (nodes dst).isSome)
    ∧ stateQueries (deliver_packet d nodes arr src hexdata).2
      = (d.node_names.filter
          (fun dst => d.conn src dst && dst != src && (nodes dst).isSome)).map
            (fun dst => (dst, (1/5 : ℚ)))
    ∧ (∀ dst q, dst ∈ d.node_names → d.conn src dst = true → dst ≠ src →
        nodes dst = some q →
        (deliver_packet d nodes arr src hexdata).1 dst = some ((waitResp (arr dst)).2))
    ∧ (∀ dst q resp, dst ∈ d.node_names → d.conn src dst = true → dst ≠ src →
        nodes dst = some q → (waitResp (arr dst)).1 = some resp →
        SimOut.state dst resp ∈ (deliver_packet d nodes arr src hexdata).2)
    ∧ (∀ dst, nodes dst = none →
        (∀ o ∈ (deliver_packet d nodes arr src hexdata).2, mentions dst o = false)
        ∧ (deliver_packet d nodes arr src hexdata).1 dst = none)
    ∧ (∀ o ∈ (deliver_packet d nodes arr src hexdata).2, isErrOut o = false) := by
  have hc : d.node_names.contains src = true := by simpa using hsrc
  have hout : (deliver_packet d nodes arr src hexdata).2
      = d.node_names.flatMap (fun dst =>
          if d.conn src dst && dst != src && (nodes dst).isSome then
            deliverBlock arr src hexdata dst
          else []) := by
    simp only [deliver_packet, hc, if_true]
    exact deliverLoop_outs d.conn arr src hexdata d.node_names nodes
  have hnodes : ∀ n, (deliver_packet d nodes arr src hexdata).1 n =
      if n ∈ d.node_names ∧ (d.conn src n && n != src) = true ∧ (nodes n).isSome = true
      then some ((waitResp (arr n)).2) else nodes n := by
    intro n
    simp only [deliver_packet, hc, if_true]
    exact deliverLoop_nodes d.conn arr src hexdata d.node_names nodes n
  refine ⟨?_, ?_, ?_, ?_, ?_, ?_⟩
  · rw [forwardsOf, hout,
      filterMap_flatMap_if _ _ _ (fun dst => dst)
        (fun dst => deliverBlock_fwd arr src hexdata dst) d.node_names, List.map_id']
  · rw [stateQueries, hout,
      filterMap_flatMap_if _ _ _ (fun dst => (dst, (1/5 : ℚ)))
        (fun dst => deliverBlock_query arr src hexdata dst) d.node_names]
  · intro dst q hmem hconn hne hq
    rw [hnodes dst, if_pos]
    exact ⟨hmem, by simp [hconn, hne], by simp [hq]⟩
  · intro dst q resp hmem hconn hne hq hw
    rw [hout]
    rw [List.mem_flatMap]
    refine ⟨dst, hmem, ?_⟩
    have hcond : (d.conn src dst && dst != src && (nodes dst).isSome) = true := by
      simp [hconn, hne, hq]
    rw [if_pos hcond]
    simp [deliverBlock, hw]
  · intro dst hnone
    constructor
    · intro o ho
      rw [hout] at ho
      rw [List.mem_flatMap] at ho
      obtain ⟨dst', hmem', ho'⟩ := ho
      by_cases hcond : (d.conn src dst' && dst' != src && (nodes dst').isSome) = true
      · rw [if_pos hcond] at ho'
        by_cases hdd : dst' = dst
        · subst hdd
          simp [hnone] at hcond
        · exact deliverBlock_mentions arr src hexdata dst' dst hdd o ho'
      · rw [if_neg hcond] at ho'
        simp at ho'
    · rw [hnodes dst, if_neg]
      · exact hnone
      · simp [hnone]
  · intro o ho
    rw [hout] at ho
    rw [List.mem_flatMap] at ho
    obtain ⟨dst', hmem', ho'⟩ := ho
    by_cases hcond : (d.conn src dst' && dst' != src && (nodes dst').isSome) = true
    · rw [if_pos hcond] at ho'
      exact deliverBlock_no_err arr src hexdata dst' o ho'
    · rw [if_neg hcond] at ho'
      simp at ho'

/-- Witness for C10: `ND02` is registered with two stale lines and answers
the query; `ND01` itself is unregistered in this registry and is left
untouched. -/
theorem deliver_packet_query_effects_witness :
    (deliver_packet dispW nodesW2 arrW "ND01" "DEAD").1 "ND02"
      = some ((waitResp (arrW "ND02")).2)
    ∧ SimOut.state "ND02" "get_state,5,ND01,7,8,9"
        ∈ (deliver_packet dispW nodesW2 arrW "ND01" "DEAD").2
    ∧ (deliver_packet dispW nodesW2 arrW "ND01" "DEAD").1 "ND01" = none := by
  have h := deliver_packet_query_effects dispW nodesW2 arrW "ND01" "DEAD" (by decide)
  refine ⟨?_, ?_, ?_⟩
  · exact h.2.2.1 "ND02" ["stale1", "stale2"] (by decide) (by decide) (by decide) (by decide)
  · exact h.2.2.2.1 "ND02" ["stale1", "stale2"] "get_state,5,ND01,7,8,9"
      (by decide) (by decide) (by decide) (by decide) (by decide)
  · exact (h.2.2.2.2.1 "ND01" (by decide)).2

/-- C8: the scheduler never suspends for a negative duration — it sleeps
exactly the remaining time when that is positive and not at all otherwise;
on waking, destination `"-1"` applies the payload as a connectivity update,
a known destination gets the payload and one `send_command` record, and an
unknown destination is reported while the loop continues with the next event
from an unchanged dispatcher. -/
theorem loader_step_and_run (known : String → Bool) (d : Dispatcher) (now : ℚ)
    (ev : Event) (rest : List (ℚ × Event)) :
    0 ≤ (loader_step known d now ev).2.1
    ∧ (0 < (loader_step known d now ev).2.1 →
        (loader_step known d now ev).2.1 = ev.ts - now)
    ∧ (ev.dest = "-1" →
        (loader_step known d now ev).1 = (update_connectivity d ev.data ev.ts).1
        ∧ (loader_step known d now ev).2.2 = (update_connectivity d ev.data ev.ts).2)
    ∧ (ev.dest ≠ "-1" → known ev.dest = true →
        (loader_step known d now ev).1 = d
        ∧ (loader_step known d now ev).2.2
            = [SimOut.sendCmd ev.dest ev.data, SimOut.send_command ev.ts ev.dest ev.data])
    ∧ (ev.dest ≠ "-1" → known ev.dest = false →
        (loader_step known d now ev).1 = d
        ∧ (loader_step known d now ev).2.2 = [SimOut.errUnknownDest ev.dest ev.ts]
        ∧ loader_run known d ((now, ev) :: rest)
            = ((loader_run known d rest).1,
               (SimOut.slept (loader_step known d now ev).2.1
                 :: [SimOut.errUnknownDest ev.dest ev.ts]) ++ (loader_run known d rest).2)) := by
  have hslept : (loader_step known d now ev).2.1
      = if ev.ts - now > 0 then ev.ts - now else 0 := by
    unfold loader_step
    by_cases hb : (ev.dest == "-1") = true <;> by_cases hk : known ev.dest = true <;>
      simp [hb, hk]
  refine ⟨?_, ?_, ?_, ?_, ?_⟩
  · rw [hslept]
    split_ifs with h
    · exact le_of_lt h
    · exact le_refl 0
  · rw [hslept]
    split_ifs with h
    · intro _; rfl
    · intro h0
      exact absurd h0 (lt_irrefl 0)
  · intro h
    have hb : (ev.dest == "-1") = true := by simp [h]
    constructor <;> simp [loader_step, hb]
  · intro h hk
    have hb : (ev.dest == "-1") = false := beq_eq_false_iff_ne.mpr h
    constructor <;> simp [loader_step, hb, hk]
  · intro h hk
    have hb : (ev.dest == "-1") = false := beq_eq_false_iff_ne.mpr h
    have h1 : (loader_step known d now ev).1 = d := by simp [loader_step, hb, hk]
    have h2 : (loader_step known d now ev).2.2 = [SimOut.errUnknownDest ev.dest ev.ts] := by
      simp [loader_step, hb, hk]
    refine ⟨h1, h2, ?_⟩
    simp only [loader_run, h1, h2]

/-- Witness for C8: a late event (timestamp 1 at elapsed time 2) addressed
to the unknown destination `ND99`. -/
theorem loader_step_and_run_witness :
    (loader_step knownW (Dispatcher.init ["ND01"]) 2 evW).1 = Dispatcher.init ["ND01"]
    ∧ (loader_step knownW (Dispatcher.init ["ND01"]) 2 evW).2.2
        = [SimOut.errUnknownDest "ND99" 1]
    ∧ loader_run knownW (Dispatcher.init ["ND01"]) ((2, evW) :: [])
        = ((loader_run knownW (Dispatcher.init ["ND01"]) []).1,
           (SimOut.slept (loader_step knownW (Dispatcher.init ["ND01"]) 2 evW).2.1
             :: [SimOut.errUnknownDest "ND99" 1])
             ++ (loader_run knownW (Dispatcher.init ["ND01"]) []).2) := by
  have h := loader_step_and_run knownW (Dispatcher.init ["ND01"]) 2 evW []
  exact h.2.2.2.2 (by decide) (by decide)

/-- C6: whatever the input order, the loaded timeline is in non-decreasing
timestamp order, is a permutation of the parsed events, and two events with
equal timestamps keep their original relative order (the sort is stable). -/
theorem timeline_sorted_and_stable (parseTs : String → Option ℚ) (lines : List String)
    (a b : Event) (hab : [a, b].Sublist (loadLoop parseTs 1 lines).1) (heq : a.ts = b.ts) :
    ((load_events parseTs lines).1.Pairwise fun x y => x.ts ≤ y.ts)
    ∧ ((load_events parseTs lines).1.Perm (loadLoop parseTs 1 lines).1)
    ∧ [a, b].Sublist (load_events parseTs lines).1 := by
  have htrans : ∀ x y z : Event, eventLE x y = true → eventLE y z = true →
      eventLE x z = true := by
    intro x y z h1 h2
    simp only [eventLE, decide_eq_true_eq] at h1 h2 ⊢
    exact le_trans h1 h2
  have htotal : ∀ x y : Event, (eventLE x y || eventLE y x) = true := by
    intro x y
    simp only [eventLE, Bool.or_eq_true, decide_eq_true_eq]
    exact le_total x.ts y.ts
  refine ⟨?_, ?_, ?_⟩
  · have hp := List.sorted_mergeSort htrans htotal (loadLoop parseTs 1 lines).1
    exact List.Pairwise.imp (fun h => by simpa [eventLE] using h) hp
  · exact List.mergeSort_perm _ _
  · exact List.pair_sublist_mergeSort htrans htotal (by simp [eventLE, heq]) hab

/-- Witness for C6: three events, two of them with timestamp 1 in input
order behind a timestamp-2 event. -/
theorem timeline_sorted_and_stable_witness :
    ([⟨1, "ND02", "y"⟩, ⟨1, "ND03", "z"⟩] : List Event).Sublist
        (loadLoop simpleTs 1 ["2,ND01,x", "1,ND02,y", "1,ND03,z"]).1
    ∧ ((load_events simpleTs ["2,ND01,x", "1,ND02,y", "1,ND03,z"]).1.Pairwise
        fun x y => x.ts ≤ y.ts)
    ∧ ([⟨1, "ND02", "y"⟩, ⟨1, "ND03", "z"⟩] : List Event).Sublist
        (load_events simpleTs ["2,ND01,x", "1,ND02,y", "1,ND03,z"]).1 := by
  have h := timeline_sorted_and_stable simpleTs ["2,ND01,x", "1,ND02,y", "1,ND03,z"]
      ⟨1, "ND02", "y"⟩ ⟨1, "ND03", "z"⟩ (by decide) rfl
  exact ⟨by decide, h.1, h.2.2⟩

/-- C9: loading the timeline treats text from `#` to end of line as a
comment and ignores blank and comment-only lines; a line with fewer than
three comma-fields, or with an unparsable timestamp, is reported with its
line number (position + 1) and skipped; every well-formed line yields its
`(timestamp, destination, payload)` event in the result; the whole input is
processed, one outcome per numbered line. -/
theorem load_events_line_handling (parseTs : String → Option ℚ) (lines : List String) :
    loadLoop parseTs 1 lines
      = ((lines.enumFrom 1).filterMap (lineEvent? parseTs),
         (lines.enumFrom 1).filterMap (lineErr? parseTs))
    ∧ (∀ raw, pyStrip (beforeFirst raw '#') = "" →
        processLine parseTs raw = LineOutcome.blank)
    ∧ (∀ raw line, processLine parseTs raw = LineOutcome.malformed line ↔
        (line = pyStrip (beforeFirst raw '#') ∧ line ≠ ""
          ∧ (splitMax2 line ',').length < 3))
    ∧ (∀ raw t, processLine parseTs raw = LineOutcome.badTimestamp t ↔
        (∃ d p, splitMax2 (pyStrip (beforeFirst raw '#')) ',' = [t, d, p]
          ∧ pyStrip (beforeFirst raw '#') ≠ "" ∧ parseTs t = none))
    ∧ (∀ raw t d p q, splitMax2 (pyStrip (beforeFirst raw '#')) ',' = [t, d, p] →
        pyStrip (beforeFirst raw '#') ≠ "" → parseTs t = some q →
        processLine parseTs raw = LineOutcome.event ⟨q, d, p⟩)
    ∧ (∀ (k : Nat) (hk : k < lines.length) (e : Event),
        processLine parseTs (lines.get ⟨k, hk⟩) = LineOutcome.event e →
        e ∈ (loadLoop parseTs 1 lines).1)
    ∧ (∀ (k : Nat) (hk : k < lines.length) (line : String),
        processLine parseTs (lines.get ⟨k, hk⟩) = LineOutcome.malformed line →
        LoadErr.malformed (1 + k) line ∈ (loadLoop parseTs 1 lines).2)
    ∧ (∀ (k : Nat) (hk : k < lines.length) (t : String),
        processLine parseTs (lines.get ⟨k, hk⟩) = LineOutcome.badTimestamp t →
        LoadErr.badTimestamp (1 + k) t ∈ (loadLoop parseTs 1 lines).2) := by
  refine ⟨loadLoop_eq parseTs 1 lines, ?_, ?_, ?_, ?_, ?_, ?_, ?_⟩
  · intro raw hb
    simp [processLine, hb]
  · intro raw line
    constructor
    · intro h
      simp only [processLine] at h
      by_cases hb : pyStrip (beforeFirst raw '#') = ""
      · simp [hb] at h
      · rw [if_neg hb] at h
        rcases hsp : splitMax2 (pyStrip (beforeFirst raw '#')) ','
          with _ | ⟨x, _ | ⟨y, _ | ⟨z, _ | ⟨w, ws⟩⟩⟩⟩
        all_goals rw [hsp] at h
        · obtain rfl : pyStrip (beforeFirst raw '#') = line := by simpa using h
          exact ⟨rfl, hb, by rw [hsp]; simp⟩
        · obtain rfl : pyStrip (beforeFirst raw '#') = line := by simpa using h
          exact ⟨rfl, hb, by rw [hsp]; simp⟩
        · obtain rfl : pyStrip (beforeFirst raw '#') = line := by simpa using h
          exact ⟨rfl, hb, by rw [hsp]; simp⟩
        · cases hp : parseTs x <;> simp [hp] at h
        · have hl := splitMax2_length_le (pyStrip (beforeFirst raw '#')) ','
          rw [hsp] at hl
          simp at hl
    · rintro ⟨rfl, hb, hlt⟩
      simp only [processLine]
      rw [if_neg hb]
      rcases hsp : splitMax2 (pyStrip (beforeFirst raw '#')) ','
        with _ | ⟨x, _ | ⟨y, _ | ⟨z, _ | ⟨w, ws⟩⟩⟩⟩
      · rfl
      · rfl
      · rfl
      · rw [hsp] at hlt
        simp at hlt
      · rfl

  · intro raw t
    constructor
    · intro h
      simp only [processLine] at h
      by_cases hb : pyStrip (beforeFirst raw '#') = ""
      · simp [hb] at h
      · rw [if_neg hb] at h
        rcases hsp : splitMax2 (pyStrip (beforeFirst raw '#')) ','
          with _ | ⟨x, _ | ⟨y, _ | ⟨z, _ | ⟨w, ws⟩⟩⟩⟩
        all_goals rw [hsp] at h
        · simp at h
        · simp at h
        · simp at h
        · cases hp : parseTs x with
          | none =>
            simp only [hp] at h
            obtain rfl : x = t := by simpa using h
            exact ⟨y, z, rfl, hb, hp⟩
          | some qq => simp [hp] at h
        · have hl := splitMax2_length_le (pyStrip (beforeFirst raw '#')) ','
          rw [hsp] at hl
          simp at hl
    · rintro ⟨dd, pp, hsp, hb, hp⟩
      simp only [processLine]
      rw [if_neg hb, hsp]
      simp [hp]
  · intro raw t d p q hsp hb hq
    simp only [processLine]
    rw [if_neg hb, hsp]
    simp [hq]
  · intro k hk e h
    simp only [List.get_eq_getElem] at h
    rw [loadLoop_eq parseTs 1 lines]
    simp only [List.mem_filterMap]
    exact ⟨(1 + k, lines.get ⟨k, hk⟩), enumFrom_get_mem lines 1 k hk,
      by simp [lineEvent?, h]⟩
  · intro k hk line h
    simp only [List.get_eq_getElem] at h
    rw [loadLoop_eq parseTs 1 lines]
    simp only [List.mem_filterMap]
    exact ⟨(1 + k, lines.get ⟨k, hk⟩), enumFrom_get_mem lines 1 k hk,
      by simp [lineErr?, h]⟩
  · intro k hk t h
    simp only [List.get_eq_getElem] at h
    rw [loadLoop_eq parseTs 1 lines]
    simp only [List.mem_filterMap]
    exact ⟨(1 + k, lines.get ⟨k, hk⟩), enumFrom_get_mem lines 1 k hk,
      by simp [lineErr?, h]⟩

/-- Witness for C9: a comment-only line, a well-formed line with an inline
comment, and a malformed line, numbered 1 to 3. -/
theorem load_events_line_handling_witness :
    processLine simpleTs "1,ND01,hello # greet" = LineOutcome.event ⟨1, "ND01", "hello"⟩
    ∧ (⟨1, "ND01", "hello"⟩ : Event)
        ∈ (loadLoop simpleTs 1 ["# header", "1,ND01,hello # greet", "oops"]).1
    ∧ LoadErr.malformed (1 + 2) "oops"
        ∈ (loadLoop simpleTs 1 ["# header", "1,ND01,hello # greet", "oops"]).2 := by
  have h := load_events_line_handling simpleTs ["# header", "1,ND01,hello # greet", "oops"]
  refine ⟨?_, ?_, ?_⟩
  · exact h.2.2.2.2.1 "1,ND01,hello # greet" "1" "ND01" "hello" 1
      (by decide) (by decide) (by decide)
  · exact h.2.2.2.2.2.1 1 (by decide) ⟨1, "ND01", "hello"⟩ (by decide)
  · exact h.2.2.2.2.2.2.1 2 (by decide) "oops" (by decide)

end NwkSim
